import Mathlib

/-!
Shallow embedding of the dtool lookup server core.

The admin store (SQL: users, base URIs, dataset admin records, permission
relations) is modelled as explicit lists; the descriptive store (a MongoDB
collection of flat documents) as a list of association lists.  Each Python
function of `dtool_lookup_server/utils.py` becomes a pure Lean function that
threads the two stores explicitly; an exception becomes an `Except.error`
result returned together with the stores as they stood at the raise point.
The legacy `app` package's routes are embedded at the end.
-/

/-- Errors raised by the server core: `ValidationError` carries its message,
`AuthenticationError` carries none. -/
inductive ServerError where
  | validationError (msg : String)
  | authenticationError
deriving DecidableEq, Repr

/-- A Python dict with string keys and string values, used for registration
payloads, mongo documents and mongo queries.  Lookup is first-key-wins, which
agrees with Python dicts on the well-formed (duplicate-free) case. -/
abbrev DatasetInfo := List (String × String)

/-- Dict lookup `d.get(k)`. -/
def dictGet? (d : DatasetInfo) (k : String) : Option String :=
  (d.find? (fun p => p.1 == k)).map Prod.snd

/-- Dict subscript `d[k]` on a key known to be present (default "" otherwise). -/
def getD (d : DatasetInfo) (k : String) : String :=
  (dictGet? d k).getD ""

/-- Python `k in d`. -/
def hasKey (d : DatasetInfo) (k : String) : Bool :=
  (dictGet? d k).isSome

/-- Dict assignment `d[k] = v`: replaces the value at an existing key, keeping
its position, or appends the new pair at the end. -/
def dictSet (d : DatasetInfo) (k v : String) : DatasetInfo :=
  if hasKey d k then d.map (fun p => if p.1 == k then (k, v) else p)
  else d ++ [(k, v)]

/-- Modelled from the spec: the SQLAlchemy model `BaseURI` lives in
`dtool_lookup_server/sql_models.py`, which is not under `src/`; per the spec a
base URI row has a unique key `base_uri` and an id referenced by datasets. -/
structure BaseURI where
  id : Nat
  base_uri : String
deriving DecidableEq, Repr

/-- Modelled from the spec: the SQLAlchemy model `User` (not under `src/`);
per the spec a user has a unique `username`, an `is_admin` flag, and two
permission relations holding the granted base URIs. -/
structure User where
  username : String
  is_admin : Bool
  search_base_uris : List BaseURI
  register_base_uris : List BaseURI
deriving DecidableEq, Repr

/-- Modelled from the spec: the SQLAlchemy model `Dataset` (not under `src/`);
per the spec an admin record ties `uri` to `uuid`, the owning base URI and a
`name`. -/
structure Dataset where
  uri : String
  base_uri_id : Nat
  uuid : String
  name : String
deriving DecidableEq, Repr

/-- The whole relational store. -/
structure SqlState where
  users : List User
  baseUris : List BaseURI
  datasets : List Dataset
deriving DecidableEq, Repr

/-- `User.query.filter_by(username=username).first()`. -/
def _get_user_obj (username : String) (s : SqlState) : Option User :=
  s.users.find? (fun u => u.username == username)

/-- `BaseURI.query.filter_by(base_uri=base_uri).first()`. -/
def _get_base_uri_obj (base_uri : String) (s : SqlState) : Option BaseURI :=
  s.baseUris.find? (fun b => b.base_uri == base_uri)

/-- `user_exists` from `utils.py`. -/
def user_exists (username : String) (s : SqlState) : Bool :=
  (_get_user_obj username s).isSome

/-- `get_user_obj` from `utils.py`: raises `AuthenticationError` when the user
is missing. -/
def get_user_obj (username : String) (s : SqlState) : Except ServerError User :=
  match _get_user_obj username s with
  | none => .error .authenticationError
  | some u => .ok u

/-- `base_uri_exists` from `utils.py`. -/
def base_uri_exists (base_uri : String) (s : SqlState) : Bool :=
  (_get_base_uri_obj base_uri s).isSome

/-- `get_base_uri_obj` from `utils.py`: raises `ValidationError` when the base
URI is not registered. -/
def get_base_uri_obj (base_uri : String) (s : SqlState) : Except ServerError BaseURI :=
  match _get_base_uri_obj base_uri s with
  | none => .error (.validationError ("Base URI " ++ base_uri ++ " not registered"))
  | some b => .ok b

/-- `DATASET_INFO_REQUIRED_KEYS` from `utils.py`. -/
def DATASET_INFO_REQUIRED_KEYS : List String :=
  ["uuid", "base_uri", "uri", "name", "type", "readme"]

/-- Python's `s.endswith("/")`: the last character, when there is one, is a
slash. -/
def endsWithSlash (s : String) : Bool :=
  match s.data.getLast? with
  | some c => c == '/'
  | none => false

/-- `dataset_info_is_valid` from `utils.py`. -/
def dataset_info_is_valid (dataset_info : DatasetInfo) : Bool :=
  if ¬ (DATASET_INFO_REQUIRED_KEYS.all (fun k => hasKey dataset_info k)) then false
  else if getD dataset_info "type" != "dataset" then false
  else if (getD dataset_info "uuid").length != 36 then false
  else if endsWithSlash (getD dataset_info "base_uri") then false
  else true

/-- A mongo flat equality query: every key/value pair of the query must occur
in the document. -/
def matchesQuery (d : DatasetInfo) (q : DatasetInfo) : Bool :=
  q.all (fun p => dictGet? d p.1 == some p.2)

/-- `collection.find_one(q)`: first matching document in insertion order. -/
def mongoFindOne (mc : List DatasetInfo) (q : DatasetInfo) : Option DatasetInfo :=
  mc.find? (fun d => matchesQuery d q)

/-- `collection.find_one_and_replace(q, new)`: replace the first matching
document in place. -/
def replaceFirst (mc : List DatasetInfo) (q : DatasetInfo) (new : DatasetInfo) :
    List DatasetInfo :=
  match mc with
  | [] => []
  | d :: rest =>
    if matchesQuery d q then new :: rest else d :: replaceFirst rest q new

/-- The dedup query `{"uuid": info["uuid"], "uri": info["uri"]}` built by
`_register_dataset_descriptive_metadata`. -/
def datasetKeyQuery (info : DatasetInfo) : DatasetInfo :=
  [("uuid", getD info "uuid"), ("uri", getD info "uri")]

/-- `_register_dataset_descriptive_metadata` from `utils.py`: returns `none`
when the payload is invalid, otherwise upserts against `(uuid, uri)` and
returns the uuid.  (The transient mongo `_id` field is not modelled: the code
deletes it from the dict before returning.) -/
def _register_dataset_descriptive_metadata (mc : List DatasetInfo)
    (dataset_info : DatasetInfo) : Option String × List DatasetInfo :=
  if ¬ dataset_info_is_valid dataset_info then (none, mc)
  else
    match mongoFindOne mc (datasetKeyQuery dataset_info) with
    | none => (some (getD dataset_info "uuid"), mc ++ [dataset_info])
    | some _ =>
      (some (getD dataset_info "uuid"),
        replaceFirst mc (datasetKeyQuery dataset_info) dataset_info)

/-- `register_dataset_descriptive_metadata` from `utils.py`: validates that
the base URI exists (raising `ValidationError` otherwise) and delegates. -/
def register_dataset_descriptive_metadata (dataset_info : DatasetInfo)
    (s : SqlState) (mc : List DatasetInfo) :
    Except ServerError (Option String × List DatasetInfo) :=
  match get_base_uri_obj (getD dataset_info "base_uri") s with
  | .error e => .error e
  | .ok _ => .ok (_register_dataset_descriptive_metadata mc dataset_info)

/-- `get_admin_metadata_from_uri` from `utils.py` (the `as_dict` projection is
left implicit: the record itself is returned). -/
def get_admin_metadata_from_uri (uri : String) (s : SqlState) : Option Dataset :=
  s.datasets.find? (fun d => d.uri == uri)

/-- `register_dataset_admin_metadata` from `utils.py`: inserts the admin row,
resolving the owning base URI first. -/
def register_dataset_admin_metadata (admin_metadata : DatasetInfo) (s : SqlState) :
    Except ServerError SqlState :=
  match get_base_uri_obj (getD admin_metadata "base_uri") s with
  | .error e => .error e
  | .ok bu =>
    .ok { s with datasets := s.datasets ++
      [{ uri := getD admin_metadata "uri", base_uri_id := bu.id,
         uuid := getD admin_metadata "uuid", name := getD admin_metadata "name" }] }

/-- `register_dataset` from `utils.py`.  The result carries the return value
(or raised error) together with both stores as left behind by the call; the
Python error messages interpolate the payload, which is abbreviated here. -/
def register_dataset (dataset_info : DatasetInfo) (s : SqlState)
    (mc : List DatasetInfo) :
    Except ServerError String × SqlState × List DatasetInfo :=
  if ¬ dataset_info_is_valid dataset_info then
    (.error (.validationError "Dataset info not valid"), s, mc)
  else if ¬ base_uri_exists (getD dataset_info "base_uri") s then
    (.error (.validationError
      ("Base URI is not registered: " ++ getD dataset_info "base_uri")), s, mc)
  else
    match (if (get_admin_metadata_from_uri (getD dataset_info "uri") s).isNone
           then register_dataset_admin_metadata dataset_info s
           else Except.ok s) with
    | .error e => (.error e, s, mc)
    | .ok s1 =>
      match register_dataset_descriptive_metadata dataset_info s1 mc with
      | .error e => (.error e, s1, mc)
      | .ok (_, mc1) => (.ok (getD dataset_info "uri"), s1, mc1)

/-- `lookup_datasets_by_user_and_uuid` from `utils.py`: the three-way
SQLAlchemy join over datasets, base URIs and users with its four filters. -/
def lookup_datasets_by_user_and_uuid (username uuid : String) (s : SqlState) :
    Except ServerError (List Dataset) :=
  match get_user_obj username s with
  | .error e => .error e
  | .ok _ =>
    .ok (s.datasets.flatMap (fun ds =>
      s.baseUris.flatMap (fun bu =>
        s.users.filterMap (fun u =>
          if ds.uuid == uuid && u.username == username && bu.id == ds.base_uri_id
              && u.search_base_uris.any (fun b => b.id == ds.base_uri_id)
          then some ds else none))))

/-- `search_datasets_by_user` from `utils.py`: per granted base URI, query the
mongo collection with a copy of the caller's query whose `base_uri` key is
overwritten, concatenating the results in scope order. -/
def search_datasets_by_user (username : String) (query : DatasetInfo)
    (s : SqlState) (mc : List DatasetInfo) :
    Except ServerError (List DatasetInfo) :=
  match get_user_obj username s with
  | .error e => .error e
  | .ok user =>
    .ok (user.search_base_uris.flatMap (fun bu =>
      mc.filter (fun d => matchesQuery d (dictSet query "base_uri" bu.base_uri))))

/-- The permissions argument of `update_permissions`. -/
structure PermSpec where
  base_uri : String
  users_with_search_permissions : List String
  users_with_register_permissions : List String
deriving Repr

/-- Mutation of the first user row matching a username, as SQLAlchemy's
`filter_by(...).first()` followed by an in-place append behaves. -/
def updateFirstUser (users : List User) (username : String) (f : User → User) :
    List User :=
  match users with
  | [] => []
  | u :: rest =>
    if u.username == username then f u :: rest
    else u :: updateFirstUser rest username f

/-- `user.search_base_uris.append(base_uri)`. -/
def addSearchUri (bu : BaseURI) (u : User) : User :=
  { u with search_base_uris := u.search_base_uris ++ [bu] }

/-- `user.register_base_uris.append(base_uri)`. -/
def addRegisterUri (bu : BaseURI) (u : User) : User :=
  { u with register_base_uris := u.register_base_uris ++ [bu] }

/-- One iteration of the search-permission loop of `update_permissions`:
skip silently unless the user exists, else append the base URI to the user's
search relation. -/
def grantSearchOne (bu : BaseURI) (s : SqlState) (username : String) : SqlState :=
  if user_exists username s then
    { s with users := updateFirstUser s.users username (addSearchUri bu) }
  else s

/-- One iteration of the register-permission loop of `update_permissions`. -/
def grantRegisterOne (bu : BaseURI) (s : SqlState) (username : String) : SqlState :=
  if user_exists username s then
    { s with users := updateFirstUser s.users username (addRegisterUri bu) }
  else s

/-- `update_permissions` from `utils.py`: resolves the base URI (raising
`ValidationError` when unregistered), then runs both grant loops. -/
def update_permissions (permissions : PermSpec) (s : SqlState) :
    Except ServerError SqlState :=
  match get_base_uri_obj permissions.base_uri s with
  | .error e => .error e
  | .ok bu =>
    let s1 := permissions.users_with_search_permissions.foldl (grantSearchOne bu) s
    let s2 := permissions.users_with_register_permissions.foldl (grantRegisterOne bu) s1
    .ok s2

/-- Whether a search edge exists between a username and a base URI string. -/
def hasSearchEdge (username base_uri : String) (s : SqlState) : Bool :=
  match _get_user_obj username s with
  | none => false
  | some u => u.search_base_uris.any (fun b => b.base_uri == base_uri)

/-- Whether a register edge exists between a username and a base URI string. -/
def hasRegisterEdge (username base_uri : String) (s : SqlState) : Bool :=
  match _get_user_obj username s with
  | none => false
  | some u => u.register_base_uris.any (fun b => b.base_uri == base_uri)

/-- Runtime failures of unguarded Python code. -/
inductive PyCrash where
  | noneSubscripted
  | keyError (k : String)
deriving DecidableEq, Repr

/-- `get_readme_from_uri` from `utils.py`: `find_one({"uri": uri})` followed by
an unguarded `item["readme"]`.  A missing document makes the subscript crash
(`None` is not subscriptable), modelled as `Except.error`. -/
def get_readme_from_uri (uri : String) (mc : List DatasetInfo) :
    Except PyCrash String :=
  match mongoFindOne mc [("uri", uri)] with
  | none => .error .noneSubscripted
  | some item =>
    match dictGet? item "readme" with
    | none => .error (.keyError "readme")
    | some r => .ok r

/-- The `GET /` route (`index`) of the legacy `app` package: the stringified
document count of the collection followed by " registered datasets". -/
def index (mc : List DatasetInfo) : String :=
  toString mc.length ++ " registered datasets"

/-- Modelled from the spec: `app/routes.py` imports `app.utils`, whose source
file is not in the repository.  Per the spec, registration validates the
payload, upserts the descriptive document against `(uuid, uri)`, and returns
the dataset's `uri` as the success token, while a validation failure yields
the `None` result the route maps to HTTP 400.  The upsert itself follows the
in-repository `_register_dataset_descriptive_metadata`. -/
def app_utils_register_dataset (mc : List DatasetInfo)
    (dataset_info : DatasetInfo) : Option String × List DatasetInfo :=
  match _register_dataset_descriptive_metadata mc dataset_info with
  | (none, mc1) => (none, mc1)
  | (some _, mc1) => (some (getD dataset_info "uri"), mc1)

/-- An HTTP response: status code and body. -/
structure HttpResponse where
  status : Nat
  body : String
deriving DecidableEq, Repr

/-- The `POST /register_dataset` route of `app/routes.py`: a `None` result
aborts with 400, otherwise the success token is returned with status 200. -/
def route_register_dataset (dataset_info : DatasetInfo) (mc : List DatasetInfo) :
    HttpResponse × List DatasetInfo :=
  match app_utils_register_dataset mc dataset_info with
  | (none, mc1) => ({ status := 400, body := "Bad Request" }, mc1)
  | (some uri, mc1) => ({ status := 200, body := uri }, mc1)

/-! ### Basic lemmas about dict lookup and payload validation -/

theorem dictGet?_of_hasKey {d : DatasetInfo} {k : String} (h : hasKey d k = true) :
    dictGet? d k = some (getD d k) := by
  unfold hasKey at h
  cases hd : dictGet? d k with
  | none => rw [hd] at h; simp at h
  | some v => simp [getD, hd]

theorem dataset_info_is_valid_iff (info : DatasetInfo) :
    dataset_info_is_valid info = true ↔
      ((∀ k ∈ DATASET_INFO_REQUIRED_KEYS, hasKey info k = true) ∧
       getD info "type" = "dataset" ∧
       (getD info "uuid").length = 36 ∧
       endsWithSlash (getD info "base_uri") = false) := by
  unfold dataset_info_is_valid
  by_cases h1 : (DATASET_INFO_REQUIRED_KEYS.all (fun k => hasKey info k)) = true <;>
  by_cases h2 : getD info "type" = "dataset" <;>
  by_cases h3 : (getD info "uuid").length = 36 <;>
  by_cases h4 : endsWithSlash (getD info "base_uri") = true <;>
    simp_all [List.all_eq_true]

/-- Successful upsert result of the descriptive registration on a valid payload. -/
theorem _register_dataset_descriptive_metadata_of_valid (mc : List DatasetInfo)
    (info : DatasetInfo) (hval : dataset_info_is_valid info = true) :
    _register_dataset_descriptive_metadata mc info =
      (some (getD info "uuid"),
        match mongoFindOne mc (datasetKeyQuery info) with
        | none => mc ++ [info]
        | some _ => replaceFirst mc (datasetKeyQuery info) info) := by
  unfold _register_dataset_descriptive_metadata
  rw [hval]
  simp only [Bool.not_true, Bool.false_eq_true, if_false]
  cases mongoFindOne mc (datasetKeyQuery info) <;> rfl

/-- A classifier for raised `ValidationError`s. -/
def isValidationError : Except ServerError String → Bool
  | .error (.validationError _) => true
  | _ => false

/-- C1: for every registration payload, `register_dataset` raises
`ValidationError` and writes to neither store unless the required keys are
present, the type is "dataset", the uuid has 36 characters, the base URI has
no trailing slash, and the base URI is registered. -/
theorem register_dataset_validation_aborts (info : DatasetInfo) (s : SqlState)
    (mc : List DatasetInfo)
    (h : ¬ ((∀ k ∈ DATASET_INFO_REQUIRED_KEYS, hasKey info k = true) ∧
            getD info "type" = "dataset" ∧
            (getD info "uuid").length = 36 ∧
            endsWithSlash (getD info "base_uri") = false ∧
            base_uri_exists (getD info "base_uri") s = true)) :
    isValidationError (register_dataset info s mc).1 = true ∧
    (register_dataset info s mc).2.1 = s ∧
    (register_dataset info s mc).2.2 = mc := by
  by_cases hv : dataset_info_is_valid info = true
  · have hconds := (dataset_info_is_valid_iff info).mp hv
    have hb : ¬ base_uri_exists (getD info "base_uri") s = true := by
      intro hb
      exact h ⟨hconds.1, hconds.2.1, hconds.2.2.1, hconds.2.2.2, hb⟩
    simp [register_dataset, hv, hb, isValidationError]
  · simp [register_dataset, hv, isValidationError]

theorem register_dataset_validation_aborts_witness :
    isValidationError (register_dataset [("uuid", "short")] ⟨[], [], []⟩ []).1 = true ∧
    (register_dataset [("uuid", "short")] ⟨[], [], []⟩ []).2.1 = (⟨[], [], []⟩ : SqlState) ∧
    (register_dataset [("uuid", "short")] ⟨[], [], []⟩ []).2.2 = [] :=
  register_dataset_validation_aborts [("uuid", "short")] ⟨[], [], []⟩ [] (by decide)

/-- Option.isSome gives a witness for the base URI lookup. -/
theorem _get_base_uri_obj_of_exists {b : String} {s : SqlState}
    (h : base_uri_exists b s = true) :
    ∃ bu, _get_base_uri_obj b s = some bu := by
  unfold base_uri_exists at h
  cases hb : _get_base_uri_obj b s with
  | none => rw [hb] at h; simp at h
  | some bu => exact ⟨bu, rfl⟩

/-- C6: a successful registration returns the dataset's uri as its success
token, and the `POST /register_dataset` route responds 200 with that uri
string on success and 400 on validation failure. -/
theorem register_dataset_returns_uri_route (info : DatasetInfo) (s : SqlState)
    (mc : List DatasetInfo) :
    (dataset_info_is_valid info = true →
      base_uri_exists (getD info "base_uri") s = true →
      (register_dataset info s mc).1 = .ok (getD info "uri")) ∧
    (dataset_info_is_valid info = true →
      (route_register_dataset info mc).1 =
        { status := 200, body := getD info "uri" }) ∧
    (dataset_info_is_valid info = false →
      (route_register_dataset info mc).1.status = 400) := by
  refine ⟨fun hv hb => ?_, fun hv => ?_, fun hv => ?_⟩
  · obtain ⟨bu, hbu⟩ := _get_base_uri_obj_of_exists hb
    have hb' : ∀ d, _get_base_uri_obj (getD info "base_uri") { s with datasets := d } =
        some bu := fun d => hbu
    unfold register_dataset register_dataset_admin_metadata
      register_dataset_descriptive_metadata get_base_uri_obj
    rw [_register_dataset_descriptive_metadata_of_valid _ _ hv]
    cases hadm : (get_admin_metadata_from_uri (getD info "uri") s).isNone <;>
      cases hfind : mongoFindOne mc (datasetKeyQuery info) <;>
        simp [hv, hb, hbu, hb', hadm, hfind]
  · unfold route_register_dataset app_utils_register_dataset
    rw [_register_dataset_descriptive_metadata_of_valid _ _ hv]
  · unfold route_register_dataset app_utils_register_dataset
      _register_dataset_descriptive_metadata
    rw [hv]
    rfl

theorem register_dataset_returns_uri_route_witness :
    (register_dataset
      [("uuid", "aaaaaaaa-bbbb-cccc-dddd-eeeeeeeeeeee"), ("base_uri", "s3://bucket"),
       ("uri", "s3://bucket/abc"), ("name", "n"), ("type", "dataset"), ("readme", "r")]
      ⟨[], [⟨1, "s3://bucket"⟩], []⟩ []).1 = .ok "s3://bucket/abc" :=
  (register_dataset_returns_uri_route
    [("uuid", "aaaaaaaa-bbbb-cccc-dddd-eeeeeeeeeeee"), ("base_uri", "s3://bucket"),
     ("uri", "s3://bucket/abc"), ("name", "n"), ("type", "dataset"), ("readme", "r")]
    ⟨[], [⟨1, "s3://bucket"⟩], []⟩ []).1 (by decide) (by decide)

/-- `find_one_and_replace` does not change the number of stored documents. -/
theorem replaceFirst_length (mc : List DatasetInfo) (q new : DatasetInfo) :
    (replaceFirst mc q new).length = mc.length := by
  induction mc with
  | nil => rfl
  | cons d rest ih =>
    unfold replaceFirst
    by_cases h : matchesQuery d q = true <;> simp [h, ih]

/-- C7: the `GET /` route returns, as plain text, the count of registered
dataset records: a fresh registration raises the reported count by one, a
re-registration of an existing `(uuid, uri)` key leaves it unchanged. -/
theorem index_reports_dataset_count (mc : List DatasetInfo) (info : DatasetInfo)
    (hval : dataset_info_is_valid info = true) :
    index mc = toString mc.length ++ " registered datasets" ∧
    (mongoFindOne mc (datasetKeyQuery info) = none →
      index (_register_dataset_descriptive_metadata mc info).2 =
        toString (mc.length + 1) ++ " registered datasets") ∧
    (∀ d, mongoFindOne mc (datasetKeyQuery info) = some d →
      index (_register_dataset_descriptive_metadata mc info).2 =
        toString mc.length ++ " registered datasets") := by
  refine ⟨rfl, fun hnone => ?_, fun d hsome => ?_⟩
  · rw [_register_dataset_descriptive_metadata_of_valid _ _ hval, hnone]
    simp [index]
  · rw [_register_dataset_descriptive_metadata_of_valid _ _ hval, hsome]
    simp [index, replaceFirst_length]

theorem index_reports_dataset_count_witness :
    index ([] : List DatasetInfo) = "0 registered datasets" ∧
    index (_register_dataset_descriptive_metadata []
      [("uuid", "aaaaaaaa-bbbb-cccc-dddd-eeeeeeeeeeee"), ("base_uri", "s3://bucket"),
       ("uri", "s3://bucket/abc"), ("name", "n"), ("type", "dataset"), ("readme", "r")]).2 =
      "1 registered datasets" :=
  ⟨(index_reports_dataset_count []
      [("uuid", "aaaaaaaa-bbbb-cccc-dddd-eeeeeeeeeeee"), ("base_uri", "s3://bucket"),
       ("uri", "s3://bucket/abc"), ("name", "n"), ("type", "dataset"), ("readme", "r")]
      (by decide)).1,
   (index_reports_dataset_count []
      [("uuid", "aaaaaaaa-bbbb-cccc-dddd-eeeeeeeeeeee"), ("base_uri", "s3://bucket"),
       ("uri", "s3://bucket/abc"), ("name", "n"), ("type", "dataset"), ("readme", "r")]
      (by decide)).2.1 rfl⟩

/-- C10: `get_readme_from_uri` is partial: for a uri with no stored document
the mongo lookup returns no document and the unguarded `item["readme"]`
subscript crashes rather than returning `None` or a typed error. -/
theorem get_readme_missing_uri_crashes (uri : String) (mc : List DatasetInfo)
    (h : ∀ d ∈ mc, dictGet? d "uri" ≠ some uri) :
    mongoFindOne mc [("uri", uri)] = none ∧
    get_readme_from_uri uri mc = .error .noneSubscripted := by
  have hfind : mongoFindOne mc [("uri", uri)] = none := by
    unfold mongoFindOne
    rw [List.find?_eq_none]
    intro d hd
    simp [matchesQuery, h d hd]
  exact ⟨hfind, by unfold get_readme_from_uri; rw [hfind]⟩

theorem get_readme_missing_uri_crashes_witness :
    mongoFindOne [[("uri", "s3://other"), ("readme", "r")]] [("uri", "s3://bucket/abc")] = none ∧
    get_readme_from_uri "s3://bucket/abc" [[("uri", "s3://other"), ("readme", "r")]] =
      .error .noneSubscripted :=
  get_readme_missing_uri_crashes "s3://bucket/abc" [[("uri", "s3://other"), ("readme", "r")]]
    (by decide)

/-- A valid payload matches its own dedup key query. -/
theorem matchesQuery_datasetKeyQuery_self (info : DatasetInfo)
    (hval : dataset_info_is_valid info = true) :
    matchesQuery info (datasetKeyQuery info) = true := by
  have hkeys := ((dataset_info_is_valid_iff info).mp hval).1
  have huuid : hasKey info "uuid" = true :=
    hkeys "uuid" (by simp [DATASET_INFO_REQUIRED_KEYS])
  have huri : hasKey info "uri" = true :=
    hkeys "uri" (by simp [DATASET_INFO_REQUIRED_KEYS])
  simp [matchesQuery, datasetKeyQuery, dictGet?_of_hasKey huuid, dictGet?_of_hasKey huri]

/-- `find_one_and_replace` leaves an unmatched prefix untouched. -/
theorem replaceFirst_append_no_match (mc l : List DatasetInfo) (q new : DatasetInfo)
    (h : ∀ d ∈ mc, ¬ matchesQuery d q = true) :
    replaceFirst (mc ++ l) q new = mc ++ replaceFirst l q new := by
  induction mc with
  | nil => simp
  | cons d rest ih =>
    have hd : ¬ matchesQuery d q = true := h d (by simp)
    have ih' := ih (fun d' hd' => h d' (by simp [hd']))
    simp [replaceFirst, hd, ih']

/-- The admin record a registration inserts for a payload, given the resolved
base URI row. -/
def adminRecordOf (info : DatasetInfo) (bu : BaseURI) : Dataset :=
  { uri := getD info "uri", base_uri_id := bu.id,
    uuid := getD info "uuid", name := getD info "name" }

/-- Closed form of a successful `register_dataset` call. -/
theorem register_dataset_success (info : DatasetInfo) (s : SqlState)
    (mc : List DatasetInfo) (bu : BaseURI)
    (hval : dataset_info_is_valid info = true)
    (hbu : _get_base_uri_obj (getD info "base_uri") s = some bu) :
    register_dataset info s mc =
      (.ok (getD info "uri"),
       (if (get_admin_metadata_from_uri (getD info "uri") s).isNone
        then { s with datasets := s.datasets ++ [adminRecordOf info bu] } else s),
       (match mongoFindOne mc (datasetKeyQuery info) with
        | none => mc ++ [info]
        | some _ => replaceFirst mc (datasetKeyQuery info) info)) := by
  have hb : base_uri_exists (getD info "base_uri") s = true := by
    simp [base_uri_exists, hbu]
  have hb' : ∀ d, _get_base_uri_obj (getD info "base_uri") { s with datasets := d } =
      some bu := fun d => hbu
  unfold register_dataset register_dataset_admin_metadata
    register_dataset_descriptive_metadata get_base_uri_obj
  rw [_register_dataset_descriptive_metadata_of_valid _ _ hval]
  cases hadm : (get_admin_metadata_from_uri (getD info "uri") s).isNone <;>
    cases hfind : mongoFindOne mc (datasetKeyQuery info) <;>
      simp [hval, hb, hbu, hb', hadm, hfind, adminRecordOf]

/-- C2: registering the same valid payload twice (registered base URI, fresh
uri and `(uuid, uri)` key) leaves exactly one admin record for that uri and
exactly one descriptive document for that key, both matching the payload; the
second call replaces the descriptive document in place and leaves the admin
store exactly as the first call left it. -/
theorem register_dataset_idempotent (info : DatasetInfo) (s : SqlState)
    (mc : List DatasetInfo)
    (hval : dataset_info_is_valid info = true)
    (hbase : base_uri_exists (getD info "base_uri") s = true)
    (hadmin : s.datasets.filter (fun d => d.uri == getD info "uri") = [])
    (hdocs : mc.filter (fun d => matchesQuery d (datasetKeyQuery info)) = []) :
    ∃ bu, _get_base_uri_obj (getD info "base_uri") s = some bu ∧
      register_dataset info s mc =
        (.ok (getD info "uri"),
         { s with datasets := s.datasets ++ [adminRecordOf info bu] },
         mc ++ [info]) ∧
      register_dataset info
          { s with datasets := s.datasets ++ [adminRecordOf info bu] } (mc ++ [info]) =
        (.ok (getD info "uri"),
         { s with datasets := s.datasets ++ [adminRecordOf info bu] },
         mc ++ [info]) ∧
      (s.datasets ++ [adminRecordOf info bu]).filter
          (fun d => d.uri == getD info "uri") = [adminRecordOf info bu] ∧
      (mc ++ [info]).filter (fun d => matchesQuery d (datasetKeyQuery info)) = [info] := by
  obtain ⟨bu, hbu⟩ := _get_base_uri_obj_of_exists hbase
  have hadmin' : ∀ d ∈ s.datasets, ¬ (d.uri == getD info "uri") = true :=
    List.filter_eq_nil_iff.mp hadmin
  have hdocs' : ∀ d ∈ mc, ¬ matchesQuery d (datasetKeyQuery info) = true :=
    List.filter_eq_nil_iff.mp hdocs
  have hfind_admin : get_admin_metadata_from_uri (getD info "uri") s = none :=
    List.find?_eq_none.mpr hadmin'
  have hfind_mc : mongoFindOne mc (datasetKeyQuery info) = none :=
    List.find?_eq_none.mpr hdocs'
  have hself : matchesQuery info (datasetKeyQuery info) = true :=
    matchesQuery_datasetKeyQuery_self info hval
  have hrecuri : ((adminRecordOf info bu).uri == getD info "uri") = true := by
    simp [adminRecordOf]
  refine ⟨bu, hbu, ?_, ?_, ?_, ?_⟩
  · rw [register_dataset_success info s mc bu hval hbu, hfind_admin, hfind_mc]
    rfl
  · set s1 : SqlState := { s with datasets := s.datasets ++ [adminRecordOf info bu] } with hs1
    have hbu1 : _get_base_uri_obj (getD info "base_uri") s1 = some bu := hbu
    rw [register_dataset_success info s1 (mc ++ [info]) bu hval hbu1]
    have hadm1 : get_admin_metadata_from_uri (getD info "uri") s1 =
        some (adminRecordOf info bu) := by
      unfold get_admin_metadata_from_uri
      rw [hs1]
      simp only [List.find?_append]
      rw [show s.datasets.find? (fun d => d.uri == getD info "uri") = none from
        List.find?_eq_none.mpr hadmin']
      simp [List.find?, hrecuri]
    have hmongo1 : mongoFindOne (mc ++ [info]) (datasetKeyQuery info) = some info := by
      unfold mongoFindOne
      simp only [List.find?_append]
      rw [show mc.find? (fun d => matchesQuery d (datasetKeyQuery info)) = none from
        List.find?_eq_none.mpr hdocs']
      simp [List.find?, hself]
    rw [hadm1, hmongo1]
    simp only [Option.isNone_some, Bool.false_eq_true, if_false]
    rw [replaceFirst_append_no_match mc [info] (datasetKeyQuery info) info hdocs']
    simp [replaceFirst, hself]
  · rw [List.filter_append, hadmin]
    simp [hrecuri]
  · rw [List.filter_append, hdocs]
    simp [hself]

theorem register_dataset_idempotent_witness :
    register_dataset
      [("uuid", "aaaaaaaa-bbbb-cccc-dddd-eeeeeeeeeeee"), ("base_uri", "s3://bucket"),
       ("uri", "s3://bucket/abc"), ("name", "n"), ("type", "dataset"), ("readme", "r")]
      ⟨[], [⟨1, "s3://bucket"⟩], []⟩ [] =
      (.ok "s3://bucket/abc",
       ⟨[], [⟨1, "s3://bucket"⟩],
        [⟨"s3://bucket/abc", 1, "aaaaaaaa-bbbb-cccc-dddd-eeeeeeeeeeee", "n"⟩]⟩,
       [[("uuid", "aaaaaaaa-bbbb-cccc-dddd-eeeeeeeeeeee"), ("base_uri", "s3://bucket"),
         ("uri", "s3://bucket/abc"), ("name", "n"), ("type", "dataset"), ("readme", "r")]]) := by
  obtain ⟨bu, hbu, h1, h2, h3, h4⟩ :=
    register_dataset_idempotent
      [("uuid", "aaaaaaaa-bbbb-cccc-dddd-eeeeeeeeeeee"), ("base_uri", "s3://bucket"),
       ("uri", "s3://bucket/abc"), ("name", "n"), ("type", "dataset"), ("readme", "r")]
      ⟨[], [⟨1, "s3://bucket"⟩], []⟩ []
      (by decide) (by decide) (by decide) (by decide)
  have hbu2 : bu = ⟨1, "s3://bucket"⟩ := by
    have h5 : some bu = some (⟨1, "s3://bucket"⟩ : BaseURI) := by
      rw [← hbu]; decide
    exact Option.some.inj h5
  subst hbu2
  exact h1.trans (by rfl)

/-! ### Lemmas for the permission-scoped lookup join (C3) -/

/-- Scanning the user relation inside the join: with unique usernames the
scan keeps exactly the looked-up user's row. -/
theorem filterMap_username_scan (users : List User) (username : String) (u0 : User)
    (p1 p2 : Bool) (g : User → Bool) (ds : Dataset)
    (hnodup : (users.map User.username).Nodup)
    (hu : users.find? (fun u => u.username == username) = some u0) :
    users.filterMap (fun u =>
        if ((p1 && (u.username == username)) && p2) && g u then some ds else none) =
      (if (p1 && p2) && g u0 then [ds] else []) := by
  induction users with
  | nil => simp at hu
  | cons u rest ih =>
    by_cases h : (u.username == username) = true
    · have hu0 : u = u0 := by
        rw [List.find?_cons_of_pos rest h] at hu
        exact Option.some.inj hu
      have hrest : ∀ u' ∈ rest, (u'.username == username) = false := by
        intro u' hu'
        have hne : u'.username ≠ u.username := by
          intro hcontra
          have : u.username ∈ rest.map User.username :=
            List.mem_map.mpr ⟨u', hu', hcontra⟩
          exact (List.nodup_cons.mp hnodup).1 this
        have heq : u.username = username := by
          simpa using h
        simp [heq ▸ hne]
      have htail : rest.filterMap (fun u =>
          if ((p1 && (u.username == username)) && p2) && g u then some ds else none) = [] := by
        rw [List.filterMap_eq_nil_iff]
        intro u' hu'
        simp [hrest u' hu']
      rw [List.filterMap_cons, htail]
      subst hu0
      simp only [h, Bool.and_true]
      cases hc : ((p1 && p2) && g u) <;> simp [hc]
    · have hu' : rest.find? (fun u => u.username == username) = some u0 := by
        rw [List.find?_cons_of_neg rest h] at hu
        exact hu
      have ih' := ih (List.nodup_cons.mp (by simpa using hnodup)).2 hu'
      rw [List.filterMap_cons]
      simp only [h]
      simpa using ih'

/-- Scanning the base-URI relation inside the join: with unique ids at most
one row contributes, exactly when some row carries the dataset's id. -/
theorem flatMap_baseuri_scan (bus : List BaseURI) (n : Nat) (A G : Bool) (ds : Dataset)
    (hnodup : (bus.map BaseURI.id).Nodup) :
    bus.flatMap (fun bu => if (A && (bu.id == n)) && G then [ds] else []) =
      (if ((bus.any (fun bu => bu.id == n)) && A) && G then [ds] else []) := by
  induction bus with
  | nil => simp
  | cons bu rest ih =>
    have ih' := ih (List.nodup_cons.mp (by simpa using hnodup)).2
    by_cases h : (bu.id == n) = true
    · have hn : bu.id = n := by simpa using h
      have hrest : rest.any (fun b => b.id == n) = false := by
        rw [List.any_eq_false]
        intro b hb
        have hne : b.id ≠ bu.id := by
          intro hcontra
          have : bu.id ∈ rest.map BaseURI.id :=
            List.mem_map.mpr ⟨b, hb, hcontra⟩
          exact (List.nodup_cons.mp hnodup).1 this
        simp [hn ▸ hne]
      rw [List.flatMap_cons, ih', hrest]
      simp [h]
    · rw [List.flatMap_cons, ih']
      simp [h]

/-- A flatMap producing singletons is a filter. -/
theorem flatMap_if_singleton (l : List Dataset) (p : Dataset → Bool) :
    l.flatMap (fun a => if p a then [a] else []) = l.filter p := by
  induction l with
  | nil => rfl
  | cons a rest ih =>
    rw [List.flatMap_cons, List.filter_cons, ih]
    by_cases h : p a = true <;> simp [h]

/-- C3: for an existing user, the uuid lookup returns exactly the admin
records whose uuid matches and whose owning base URI lies in the user's
search scope; with a scope disjoint from all stored datasets the result is
empty, so a dataset under an ungranted base URI never appears. -/
theorem lookup_datasets_scope_correct (username uuid : String) (s : SqlState)
    (u0 : User)
    (hnodupU : (s.users.map User.username).Nodup)
    (hnodupB : (s.baseUris.map BaseURI.id).Nodup)
    (hri : ∀ ds ∈ s.datasets, s.baseUris.any (fun bu => bu.id == ds.base_uri_id) = true)
    (hu : _get_user_obj username s = some u0) :
    lookup_datasets_by_user_and_uuid username uuid s =
      .ok (s.datasets.filter (fun ds =>
        ds.uuid == uuid &&
          u0.search_base_uris.any (fun b => b.id == ds.base_uri_id))) ∧
    ((∀ b ∈ u0.search_base_uris, ∀ ds ∈ s.datasets, b.id ≠ ds.base_uri_id) →
      lookup_datasets_by_user_and_uuid username uuid s = .ok []) := by
  have hinner : ∀ ds : Dataset,
      s.baseUris.any (fun bu => bu.id == ds.base_uri_id) = true →
      s.baseUris.flatMap (fun bu => s.users.filterMap (fun u =>
        if ds.uuid == uuid && u.username == username && bu.id == ds.base_uri_id
            && u.search_base_uris.any (fun b => b.id == ds.base_uri_id)
        then some ds else none)) =
      (if ds.uuid == uuid && u0.search_base_uris.any (fun b => b.id == ds.base_uri_id)
       then [ds] else []) := by
    intro ds hany
    have hfun : (fun bu : BaseURI => s.users.filterMap (fun u =>
        if ds.uuid == uuid && u.username == username && bu.id == ds.base_uri_id
            && u.search_base_uris.any (fun b => b.id == ds.base_uri_id)
        then some ds else none)) =
        (fun bu : BaseURI =>
          if ((ds.uuid == uuid) && (bu.id == ds.base_uri_id)) &&
              (u0.search_base_uris.any (fun b => b.id == ds.base_uri_id))
          then [ds] else []) :=
      funext fun bu => filterMap_username_scan s.users username u0
        (ds.uuid == uuid) (bu.id == ds.base_uri_id)
        (fun u => u.search_base_uris.any (fun b => b.id == ds.base_uri_id)) ds hnodupU hu
    rw [hfun,
      flatMap_baseuri_scan s.baseUris ds.base_uri_id (ds.uuid == uuid)
        (u0.search_base_uris.any (fun b => b.id == ds.base_uri_id)) ds hnodupB,
      hany]
    simp
  have hflat : ∀ l : List Dataset,
      (∀ ds ∈ l, s.baseUris.any (fun bu => bu.id == ds.base_uri_id) = true) →
      l.flatMap (fun ds => s.baseUris.flatMap (fun bu => s.users.filterMap (fun u =>
        if ds.uuid == uuid && u.username == username && bu.id == ds.base_uri_id
            && u.search_base_uris.any (fun b => b.id == ds.base_uri_id)
        then some ds else none))) =
      l.filter (fun ds => ds.uuid == uuid &&
        u0.search_base_uris.any (fun b => b.id == ds.base_uri_id)) := by
    intro l
    induction l with
    | nil => intro _; rfl
    | cons d rest ih =>
      intro hl
      rw [List.flatMap_cons, hinner d (hl d (by simp)),
        ih (fun x hx => hl x (by simp [hx])), List.filter_cons]
      by_cases hp : (d.uuid == uuid &&
          u0.search_base_uris.any (fun b => b.id == d.base_uri_id)) = true <;>
        simp [hp]
  have hmain : lookup_datasets_by_user_and_uuid username uuid s =
      .ok (s.datasets.filter (fun ds => ds.uuid == uuid &&
        u0.search_base_uris.any (fun b => b.id == ds.base_uri_id))) := by
    unfold lookup_datasets_by_user_and_uuid get_user_obj
    simp only [hu]
    rw [hflat s.datasets hri]
  refine ⟨hmain, fun hdisj => ?_⟩
  rw [hmain]
  have hnil : s.datasets.filter (fun ds => ds.uuid == uuid &&
      u0.search_base_uris.any (fun b => b.id == ds.base_uri_id)) = [] := by
    rw [List.filter_eq_nil_iff]
    intro ds hds
    have hany : u0.search_base_uris.any (fun b => b.id == ds.base_uri_id) = false := by
      rw [List.any_eq_false]
      intro b hb
      simp [hdisj b hb ds hds]
    simp [hany]
  rw [hnil]

theorem lookup_datasets_scope_correct_witness :
    lookup_datasets_by_user_and_uuid "alice" "aaaaaaaa-bbbb-cccc-dddd-eeeeeeeeeeee"
      ⟨[⟨"alice", false, [⟨1, "s3://bucket"⟩], []⟩],
       [⟨1, "s3://bucket"⟩, ⟨2, "s3://other"⟩],
       [⟨"s3://other/abc", 2, "aaaaaaaa-bbbb-cccc-dddd-eeeeeeeeeeee", "n"⟩]⟩ =
      .ok [] :=
  (lookup_datasets_scope_correct "alice" "aaaaaaaa-bbbb-cccc-dddd-eeeeeeeeeeee"
    ⟨[⟨"alice", false, [⟨1, "s3://bucket"⟩], []⟩],
     [⟨1, "s3://bucket"⟩, ⟨2, "s3://other"⟩],
     [⟨"s3://other/abc", 2, "aaaaaaaa-bbbb-cccc-dddd-eeeeeeeeeeee", "n"⟩]⟩
    ⟨"alice", false, [⟨1, "s3://bucket"⟩], []⟩
    (by decide) (by decide) (by decide) (by decide)).2 (by decide)

/-! ### Lemmas for the scoped search (C4, C9) -/

/-- Pointwise-equal predicates on the members give the same `all`. -/
theorem all_congr_mem {α : Type} (l : List α) (f g : α → Bool)
    (h : ∀ a ∈ l, f a = g a) : l.all f = l.all g := by
  induction l with
  | nil => rfl
  | cons a rest ih =>
    simp only [List.all_cons]
    rw [h a (by simp), ih (fun a' ha' => h a' (by simp [ha']))]

/-- A key that is absent matches no pair of the dict. -/
theorem keys_ne_of_not_hasKey {q : DatasetInfo} {k : String}
    (h : ¬ hasKey q k = true) : ∀ p ∈ q, (p.1 == k) = false := by
  intro p hp
  cases hk : (p.1 == k) with
  | false => rfl
  | true =>
    exfalso
    apply h
    unfold hasKey dictGet?
    cases hf : q.find? (fun p => p.1 == k) with
    | none =>
      rw [List.find?_eq_none] at hf
      exact absurd hk (by simpa using hf p hp)
    | some p' => simp

/-- `d[k] = v` always leaves the key present. -/
theorem hasKey_dictSet (q : DatasetInfo) (k v : String) :
    hasKey (dictSet q k v) k = true := by
  unfold dictSet
  by_cases hp : hasKey q k = true
  · rw [if_pos hp]
    unfold hasKey dictGet? at hp ⊢
    rw [List.find?_map]
    have hfn : ((fun p : String × String => p.1 == k) ∘
        (fun p : String × String => if p.1 == k then (k, v) else p)) =
        (fun p : String × String => p.1 == k) := by
      funext p
      by_cases h : (p.1 == k) = true
      · have h' : p.1 = k := by simpa using h
        simp [Function.comp, h, h']
      · have h' : ¬ p.1 = k := by simpa using h
        simp [Function.comp, h, h']
    rw [hfn]
    cases hf : q.find? (fun p => p.1 == k) with
    | none => rw [hf] at hp; simp at hp
    | some p' => simp
  · rw [if_neg hp]
    unfold hasKey dictGet?
    rw [List.find?_append]
    have hf : q.find? (fun p => p.1 == k) = none := by
      rw [List.find?_eq_none]
      intro p hpq
      simp [keys_ne_of_not_hasKey hp p hpq]
    rw [hf]
    simp [List.find?]

/-- Overwriting the same key twice is the same as writing it once. -/
theorem dictSet_dictSet (q : DatasetInfo) (k v w : String) :
    dictSet (dictSet q k v) k w = dictSet q k w := by
  unfold dictSet
  by_cases hp : hasKey q k = true
  · rw [if_pos hp]
    rw [if_pos (by
      have h0 := hasKey_dictSet q k v
      unfold dictSet at h0
      rw [if_pos hp] at h0
      exact h0)]
    rw [List.map_map, if_pos hp]
    apply List.map_eq_map_iff.mpr
    intro p _
    by_cases h : (p.1 == k) = true
    · have h' : p.1 = k := by simpa using h
      simp [Function.comp, h, h']
    · have h' : ¬ p.1 = k := by simpa using h
      simp [Function.comp, h, h']
  · rw [if_neg hp]
    rw [if_pos (by
      have h0 := hasKey_dictSet q k v
      unfold dictSet at h0
      rw [if_neg hp] at h0
      exact h0)]
    rw [if_neg hp, List.map_append]
    have hq : q.map (fun p => if p.1 == k then (k, w) else p) = q := by
      conv_rhs => rw [← List.map_id q]
      apply List.map_eq_map_iff.mpr
      intro p hpq
      have h' : ¬ p.1 = k := by simpa using keys_ne_of_not_hasKey hp p hpq
      simp [h']
    rw [hq]
    simp

/-- Querying with a pinned key: the document must carry the pinned value at
that key, and every other pair of the original query must still match. -/
theorem matchesQuery_dictSet (d q : DatasetInfo) (k v : String) :
    matchesQuery d (dictSet q k v) =
      ((dictGet? d k == some v) &&
        q.all (fun p => (p.1 == k) || (dictGet? d p.1 == some p.2))) := by
  unfold matchesQuery dictSet
  by_cases hp : hasKey q k = true
  · rw [if_pos hp, List.all_map]
    by_cases hX : (dictGet? d k == some v) = true
    · rw [hX, Bool.true_and]
      apply all_congr_mem
      intro p _
      by_cases h : (p.1 == k) = true
      · have h' : p.1 = k := by simpa using h
        simp [Function.comp, h, h', hX]
      · have h' : ¬ p.1 = k := by simpa using h
        simp [Function.comp, h, h']
    · have hXf : (dictGet? d k == some v) = false := by
        cases hc : (dictGet? d k == some v) with
        | false => rfl
        | true => exact absurd hc hX
      rw [hXf, Bool.false_and]
      rw [List.all_eq_false]
      obtain ⟨p', hp'⟩ : ∃ p', q.find? (fun p => p.1 == k) = some p' := by
        unfold hasKey dictGet? at hp
        cases hf : q.find? (fun p => p.1 == k) with
        | none => rw [hf] at hp; simp at hp
        | some p'' => exact ⟨p'', rfl⟩
      refine ⟨p', List.mem_of_find?_eq_some hp', ?_⟩
      have hk := List.find?_some hp'
      have hk' : p'.1 = k := by simpa using hk
      simp [Function.comp, hk, hk', hXf]
  · rw [if_neg hp, List.all_append]
    have hq : q.all (fun p => dictGet? d p.1 == some p.2) =
        q.all (fun p => (p.1 == k) || (dictGet? d p.1 == some p.2)) := by
      apply all_congr_mem
      intro p hpq
      simp [keys_ne_of_not_hasKey hp p hpq]
    rw [hq]
    simp [Bool.and_comm]

/-- C4: the scoped search resolves the user (AuthenticationError when the
username is unknown), then issues one store query per base URI in the user's
search scope — the caller's query with `base_uri` pinned to that URI —
concatenating the result lists in scope order; an empty scope yields the
empty list, not an error. -/
theorem search_datasets_scoped_query (username : String) (query : DatasetInfo)
    (s : SqlState) (mc : List DatasetInfo) :
    (_get_user_obj username s = none →
      search_datasets_by_user username query s mc = .error .authenticationError) ∧
    (∀ u0, _get_user_obj username s = some u0 →
      search_datasets_by_user username query s mc =
        .ok (u0.search_base_uris.flatMap (fun bu =>
          mc.filter (fun d =>
            (dictGet? d "base_uri" == some bu.base_uri) &&
            query.all (fun p => (p.1 == "base_uri") || (dictGet? d p.1 == some p.2))))) ∧
      (u0.search_base_uris = [] →
        search_datasets_by_user username query s mc = .ok [])) := by
  refine ⟨fun hnone => ?_, fun u0 hu => ?_⟩
  · unfold search_datasets_by_user get_user_obj
    simp only [hnone]
  · have hmain : search_datasets_by_user username query s mc =
        .ok (u0.search_base_uris.flatMap (fun bu =>
          mc.filter (fun d =>
            (dictGet? d "base_uri" == some bu.base_uri) &&
            query.all (fun p => (p.1 == "base_uri") || (dictGet? d p.1 == some p.2))))) := by
      unfold search_datasets_by_user get_user_obj
      simp only [hu]
      have hfn : (fun bu : BaseURI => mc.filter (fun d =>
          matchesQuery d (dictSet query "base_uri" bu.base_uri))) =
          (fun bu : BaseURI => mc.filter (fun d =>
            (dictGet? d "base_uri" == some bu.base_uri) &&
            query.all (fun p => (p.1 == "base_uri") || (dictGet? d p.1 == some p.2)))) := by
        funext bu
        have hpred : (fun d => matchesQuery d (dictSet query "base_uri" bu.base_uri)) =
            (fun d : DatasetInfo =>
              (dictGet? d "base_uri" == some bu.base_uri) &&
              query.all (fun p => (p.1 == "base_uri") || (dictGet? d p.1 == some p.2))) :=
          funext fun d => matchesQuery_dictSet d query "base_uri" bu.base_uri
        rw [hpred]
      rw [hfn]
    refine ⟨hmain, fun hempty => ?_⟩
    rw [hmain, hempty]
    rfl

theorem search_datasets_scoped_query_witness :
    search_datasets_by_user "alice" [("name", "n")]
      ⟨[⟨"alice", false, [⟨1, "s3://bucket"⟩], []⟩], [⟨1, "s3://bucket"⟩], []⟩
      [[("uuid", "aaaaaaaa-bbbb-cccc-dddd-eeeeeeeeeeee"), ("base_uri", "s3://bucket"),
        ("uri", "s3://bucket/abc"), ("name", "n"), ("type", "dataset"), ("readme", "r")],
       [("uuid", "ffffffff-bbbb-cccc-dddd-eeeeeeeeeeee"), ("base_uri", "s3://other"),
        ("uri", "s3://other/xyz"), ("name", "n"), ("type", "dataset"), ("readme", "r")]] =
      .ok [[("uuid", "aaaaaaaa-bbbb-cccc-dddd-eeeeeeeeeeee"), ("base_uri", "s3://bucket"),
        ("uri", "s3://bucket/abc"), ("name", "n"), ("type", "dataset"), ("readme", "r")]] :=
  (((search_datasets_scoped_query "alice" [("name", "n")]
      ⟨[⟨"alice", false, [⟨1, "s3://bucket"⟩], []⟩], [⟨1, "s3://bucket"⟩], []⟩
      [[("uuid", "aaaaaaaa-bbbb-cccc-dddd-eeeeeeeeeeee"), ("base_uri", "s3://bucket"),
        ("uri", "s3://bucket/abc"), ("name", "n"), ("type", "dataset"), ("readme", "r")],
       [("uuid", "ffffffff-bbbb-cccc-dddd-eeeeeeeeeeee"), ("base_uri", "s3://other"),
        ("uri", "s3://other/xyz"), ("name", "n"), ("type", "dataset"), ("readme", "r")]]).2
    ⟨"alice", false, [⟨1, "s3://bucket"⟩], []⟩ rfl).1).trans (by rfl)

/-- C9: a `base_uri` value planted in the caller's query never influences the
search result — the per-scope store query overwrites it — so every returned
document carries a base URI from the user's own search scope; the caller's
query itself is never mutated (the code copies it before pinning). -/
theorem search_base_uri_noninterference (username : String) (query : DatasetInfo)
    (s : SqlState) (mc : List DatasetInfo) (v : String) :
    search_datasets_by_user username (dictSet query "base_uri" v) s mc =
      search_datasets_by_user username query s mc ∧
    (∀ u0, _get_user_obj username s = some u0 →
      ∀ res, search_datasets_by_user username query s mc = .ok res →
        ∀ d ∈ res, ∃ bu ∈ u0.search_base_uris,
          dictGet? d "base_uri" = some bu.base_uri) := by
  constructor
  · unfold search_datasets_by_user get_user_obj
    cases hu : _get_user_obj username s with
    | none => rfl
    | some u0 =>
      simp only
      have hfn : (fun bu : BaseURI => mc.filter (fun d =>
          matchesQuery d (dictSet (dictSet query "base_uri" v) "base_uri" bu.base_uri))) =
          (fun bu : BaseURI => mc.filter (fun d =>
            matchesQuery d (dictSet query "base_uri" bu.base_uri))) := by
        funext bu
        rw [dictSet_dictSet]
      rw [hfn]
  · intro u0 hu res hres d hd
    unfold search_datasets_by_user get_user_obj at hres
    rw [hu] at hres
    simp only [Except.ok.injEq] at hres
    rw [← hres] at hd
    obtain ⟨bu, hbu, hmem⟩ := List.mem_flatMap.mp hd
    have hmatch := (List.mem_filter.mp hmem).2
    rw [matchesQuery_dictSet] at hmatch
    have hbase := ((Bool.and_eq_true _ _).mp hmatch).1
    exact ⟨bu, hbu, by simpa using hbase⟩

theorem search_base_uri_noninterference_witness :
    search_datasets_by_user "alice"
      (dictSet [("name", "n")] "base_uri" "s3://evil")
      ⟨[⟨"alice", false, [⟨1, "s3://bucket"⟩], []⟩], [⟨1, "s3://bucket"⟩], []⟩
      [[("uuid", "aaaaaaaa-bbbb-cccc-dddd-eeeeeeeeeeee"), ("base_uri", "s3://bucket"),
        ("uri", "s3://bucket/abc"), ("name", "n"), ("type", "dataset"), ("readme", "r")]] =
    search_datasets_by_user "alice" [("name", "n")]
      ⟨[⟨"alice", false, [⟨1, "s3://bucket"⟩], []⟩], [⟨1, "s3://bucket"⟩], []⟩
      [[("uuid", "aaaaaaaa-bbbb-cccc-dddd-eeeeeeeeeeee"), ("base_uri", "s3://bucket"),
        ("uri", "s3://bucket/abc"), ("name", "n"), ("type", "dataset"), ("readme", "r")]] :=
  (search_base_uri_noninterference "alice" [("name", "n")]
    ⟨[⟨"alice", false, [⟨1, "s3://bucket"⟩], []⟩], [⟨1, "s3://bucket"⟩], []⟩
    [[("uuid", "aaaaaaaa-bbbb-cccc-dddd-eeeeeeeeeeee"), ("base_uri", "s3://bucket"),
      ("uri", "s3://bucket/abc"), ("name", "n"), ("type", "dataset"), ("readme", "r")]]
    "s3://evil").1

/-! ### Lemmas for the permission update (C5, C8) -/

/-- Looking a username up after mutating the first row of another (or the
same) username: the lookup sees the mutation exactly when the usernames
coincide, provided the mutation preserves the username. -/
theorem find?_updateFirstUser (users : List User) (un' un : String) (f : User → User)
    (hf : ∀ u, (f u).username = u.username) :
    (updateFirstUser users un' f).find? (fun u => u.username == un) =
      (if (un' == un) = true
       then (users.find? (fun u => u.username == un)).map f
       else users.find? (fun u => u.username == un)) := by
  induction users with
  | nil =>
    cases h : (un' == un) <;> simp [updateFirstUser, h]
  | cons u rest ih =>
    by_cases hh : (u.username == un') = true
    · have hhu : u.username = un' := by simpa using hh
      unfold updateFirstUser
      rw [if_pos hh]
      by_cases he : (un' == un) = true
      · have he' : un' = un := by simpa using he
        have hhead : ((f u).username == un) = true := by
          rw [hf u, hhu, he']; simp
        have hpos : (u.username == un) = true := by
          rw [hhu, he']; simp
        simp [List.find?_cons, hhead, hpos, he]
      · have he' : ¬ un' = un := by simpa using he
        have hhead : ((f u).username == un) = false := by
          rw [hf u, hhu]; simpa using he'
        have hneg : (u.username == un) = false := by
          rw [hhu]; simpa using he'
        simp [List.find?_cons, hhead, hneg, he]
    · unfold updateFirstUser
      rw [if_neg hh]
      by_cases hu : (u.username == un) = true
      · by_cases he : (un' == un) = true
        · exfalso
          apply hh
          have he' : un' = un := by simpa using he
          have hu' : u.username = un := by simpa using hu
          rw [hu', he']; simp
        · simp [List.find?_cons, hu, he]
      · have hu' : (u.username == un) = false := by
          cases hc : (u.username == un) with
          | false => rfl
          | true => exact absurd hc hu
        by_cases he : (un' == un) = true
        · simp [List.find?_cons, hu', he, ih]
        · simp [List.find?_cons, hu', he, ih]

/-- One search grant adds exactly the targeted (existing) user's edge. -/
theorem hasSearchEdge_grantSearchOne (bu : BaseURI) (st : SqlState) (un' un b : String) :
    hasSearchEdge un b (grantSearchOne bu st un') =
      (hasSearchEdge un b st ||
        ((un' == un) && user_exists un st && (bu.base_uri == b))) := by
  unfold grantSearchOne
  by_cases hex : user_exists un' st = true
  · rw [if_pos hex]
    have hlk := find?_updateFirstUser st.users un' un (addSearchUri bu) (fun u => rfl)
    unfold hasSearchEdge _get_user_obj
    by_cases he : (un' == un) = true
    · have he' : un' = un := by simpa using he
      subst he'
      obtain ⟨u1, hu1⟩ : ∃ u1, st.users.find? (fun u => u.username == un') = some u1 := by
        unfold user_exists _get_user_obj at hex
        cases hc : st.users.find? (fun u => u.username == un') with
        | none => rw [hc] at hex; simp at hex
        | some x => exact ⟨x, rfl⟩
      rw [if_pos he, hu1] at hlk
      simp only [hlk, hu1]
      simp [addSearchUri, List.any_append, hex, he]
    · have hef : (un' == un) = false := by
        cases hc : (un' == un) with
        | false => rfl
        | true => exact absurd hc he
      rw [if_neg he] at hlk
      simp only [hlk]
      cases hc : st.users.find? (fun u => u.username == un) <;> simp [hef]
  · rw [if_neg hex]
    have hexf : user_exists un' st = false := by
      cases hc : user_exists un' st with
      | false => rfl
      | true => exact absurd hc hex
    by_cases he : (un' == un) = true
    · have he' : un' = un := by simpa using he
      subst he'
      simp [hexf]
    · have hef : (un' == un) = false := by
        cases hc : (un' == un) with
        | false => rfl
        | true => exact absurd hc he
      simp [hef]

/-- A register grant never touches search edges. -/
theorem hasSearchEdge_grantRegisterOne (bu : BaseURI) (st : SqlState) (un' un b : String) :
    hasSearchEdge un b (grantRegisterOne bu st un') = hasSearchEdge un b st := by
  unfold grantRegisterOne
  by_cases hex : user_exists un' st = true
  · rw [if_pos hex]
    have hlk := find?_updateFirstUser st.users un' un (addRegisterUri bu) (fun u => rfl)
    unfold hasSearchEdge _get_user_obj
    by_cases he : (un' == un) = true
    · rw [if_pos he] at hlk
      simp only [hlk]
      cases hc : st.users.find? (fun u => u.username == un) <;> simp [addRegisterUri]
    · rw [if_neg he] at hlk
      simp only [hlk]
  · rw [if_neg hex]

/-- A search grant never touches register edges. -/
theorem hasRegisterEdge_grantSearchOne (bu : BaseURI) (st : SqlState) (un' un b : String) :
    hasRegisterEdge un b (grantSearchOne bu st un') = hasRegisterEdge un b st := by
  unfold grantSearchOne
  by_cases hex : user_exists un' st = true
  · rw [if_pos hex]
    have hlk := find?_updateFirstUser st.users un' un (addSearchUri bu) (fun u => rfl)
    unfold hasRegisterEdge _get_user_obj
    by_cases he : (un' == un) = true
    · rw [if_pos he] at hlk
      simp only [hlk]
      cases hc : st.users.find? (fun u => u.username == un) <;> simp [addSearchUri]
    · rw [if_neg he] at hlk
      simp only [hlk]
  · rw [if_neg hex]

/-- One register grant adds exactly the targeted (existing) user's edge. -/
theorem hasRegisterEdge_grantRegisterOne (bu : BaseURI) (st : SqlState) (un' un b : String) :
    hasRegisterEdge un b (grantRegisterOne bu st un') =
      (hasRegisterEdge un b st ||
        ((un' == un) && user_exists un st && (bu.base_uri == b))) := by
  unfold grantRegisterOne
  by_cases hex : user_exists un' st = true
  · rw [if_pos hex]
    have hlk := find?_updateFirstUser st.users un' un (addRegisterUri bu) (fun u => rfl)
    unfold hasRegisterEdge _get_user_obj
    by_cases he : (un' == un) = true
    · have he' : un' = un := by simpa using he
      subst he'
      obtain ⟨u1, hu1⟩ : ∃ u1, st.users.find? (fun u => u.username == un') = some u1 := by
        unfold user_exists _get_user_obj at hex
        cases hc : st.users.find? (fun u => u.username == un') with
        | none => rw [hc] at hex; simp at hex
        | some x => exact ⟨x, rfl⟩
      rw [if_pos he, hu1] at hlk
      simp only [hlk, hu1]
      simp [addRegisterUri, List.any_append, hex, he]
    · have hef : (un' == un) = false := by
        cases hc : (un' == un) with
        | false => rfl
        | true => exact absurd hc he
      rw [if_neg he] at hlk
      simp only [hlk]
      cases hc : st.users.find? (fun u => u.username == un) <;> simp [hef]
  · rw [if_neg hex]
    have hexf : user_exists un' st = false := by
      cases hc : user_exists un' st with
      | false => rfl
      | true => exact absurd hc hex
    by_cases he : (un' == un) = true
    · have he' : un' = un := by simpa using he
      subst he'
      simp [hexf]
    · have hef : (un' == un) = false := by
        cases hc : (un' == un) with
        | false => rfl
        | true => exact absurd hc he
      simp [hef]

/-- Grants never change which users exist (search side). -/
theorem user_exists_grantSearchOne (bu : BaseURI) (st : SqlState) (un' un : String) :
    user_exists un (grantSearchOne bu st un') = user_exists un st := by
  unfold grantSearchOne
  by_cases hex : user_exists un' st = true
  · rw [if_pos hex]
    have hlk := find?_updateFirstUser st.users un' un (addSearchUri bu) (fun u => rfl)
    unfold user_exists _get_user_obj
    by_cases he : (un' == un) = true
    · rw [if_pos he] at hlk
      simp only [hlk]
      cases hc : st.users.find? (fun u => u.username == un) <;> simp
    · rw [if_neg he] at hlk
      simp only [hlk]
  · rw [if_neg hex]

/-- Grants never change which users exist (register side). -/
theorem user_exists_grantRegisterOne (bu : BaseURI) (st : SqlState) (un' un : String) :
    user_exists un (grantRegisterOne bu st un') = user_exists un st := by
  unfold grantRegisterOne
  by_cases hex : user_exists un' st = true
  · rw [if_pos hex]
    have hlk := find?_updateFirstUser st.users un' un (addRegisterUri bu) (fun u => rfl)
    unfold user_exists _get_user_obj
    by_cases he : (un' == un) = true
    · rw [if_pos he] at hlk
      simp only [hlk]
      cases hc : st.users.find? (fun u => u.username == un) <;> simp
    · rw [if_neg he] at hlk
      simp only [hlk]
  · rw [if_neg hex]

/-- The search loop never changes which users exist. -/
theorem user_exists_foldl_search (bu : BaseURI) (L : List String) (st : SqlState)
    (un : String) :
    user_exists un (L.foldl (grantSearchOne bu) st) = user_exists un st := by
  induction L generalizing st with
  | nil => rfl
  | cons un' L ih =>
    rw [List.foldl_cons, ih, user_exists_grantSearchOne]

/-- The register loop never changes which users exist. -/
theorem user_exists_foldl_register (bu : BaseURI) (L : List String) (st : SqlState)
    (un : String) :
    user_exists un (L.foldl (grantRegisterOne bu) st) = user_exists un st := by
  induction L generalizing st with
  | nil => rfl
  | cons un' L ih =>
    rw [List.foldl_cons, ih, user_exists_grantRegisterOne]

/-- The register loop never changes search edges. -/
theorem hasSearchEdge_foldl_register (bu : BaseURI) (L : List String) (st : SqlState)
    (un b : String) :
    hasSearchEdge un b (L.foldl (grantRegisterOne bu) st) = hasSearchEdge un b st := by
  induction L generalizing st with
  | nil => rfl
  | cons un' L ih =>
    rw [List.foldl_cons, ih, hasSearchEdge_grantRegisterOne]

/-- The search loop never changes register edges. -/
theorem hasRegisterEdge_foldl_search (bu : BaseURI) (L : List String) (st : SqlState)
    (un b : String) :
    hasRegisterEdge un b (L.foldl (grantSearchOne bu) st) = hasRegisterEdge un b st := by
  induction L generalizing st with
  | nil => rfl
  | cons un' L ih =>
    rw [List.foldl_cons, ih, hasRegisterEdge_grantSearchOne]

/-- The search loop adds exactly the edges of the listed existing users. -/
theorem hasSearchEdge_foldl_search (bu : BaseURI) (L : List String) (st : SqlState)
    (un b : String) :
    hasSearchEdge un b (L.foldl (grantSearchOne bu) st) =
      (hasSearchEdge un b st ||
        (L.any (fun x => x == un) && user_exists un st && (bu.base_uri == b))) := by
  induction L generalizing st with
  | nil => simp
  | cons un' L ih =>
    rw [List.foldl_cons, ih, hasSearchEdge_grantSearchOne, user_exists_grantSearchOne,
      List.any_cons]
    cases h1 : hasSearchEdge un b st <;>
      cases h2 : (un' == un) <;>
        cases h3 : (L.any fun x => x == un) <;>
          cases h4 : user_exists un st <;>
            cases h5 : (bu.base_uri == b) <;> simp [h1, h2, h3, h4, h5]

/-- The register loop adds exactly the edges of the listed existing users. -/
theorem hasRegisterEdge_foldl_register (bu : BaseURI) (L : List String) (st : SqlState)
    (un b : String) :
    hasRegisterEdge un b (L.foldl (grantRegisterOne bu) st) =
      (hasRegisterEdge un b st ||
        (L.any (fun x => x == un) && user_exists un st && (bu.base_uri == b))) := by
  induction L generalizing st with
  | nil => simp
  | cons un' L ih =>
    rw [List.foldl_cons, ih, hasRegisterEdge_grantRegisterOne, user_exists_grantRegisterOne,
      List.any_cons]
    cases h1 : hasRegisterEdge un b st <;>
      cases h2 : (un' == un) <;>
        cases h3 : (L.any fun x => x == un) <;>
          cases h4 : user_exists un st <;>
            cases h5 : (bu.base_uri == b) <;> simp [h1, h2, h3, h4, h5]

/-- Full characterization of a successful `update_permissions` call: the
edges afterwards are the union of the edges before with the granted ones, and
the user population is untouched. -/
theorem update_permissions_char (perm : PermSpec) (s s2 : SqlState)
    (hok : update_permissions perm s = .ok s2) :
    (∀ un b, hasSearchEdge un b s2 =
      (hasSearchEdge un b s ||
        (perm.users_with_search_permissions.any (fun x => x == un) &&
          user_exists un s && (perm.base_uri == b)))) ∧
    (∀ un b, hasRegisterEdge un b s2 =
      (hasRegisterEdge un b s ||
        (perm.users_with_register_permissions.any (fun x => x == un) &&
          user_exists un s && (perm.base_uri == b)))) ∧
    (∀ un, user_exists un s2 = user_exists un s) := by
  unfold update_permissions get_base_uri_obj at hok
  cases hbu : _get_base_uri_obj perm.base_uri s with
  | none => rw [hbu] at hok; simp at hok
  | some bu =>
    rw [hbu] at hok
    simp only [Except.ok.injEq] at hok
    have hb : bu.base_uri = perm.base_uri := by
      have hfs := List.find?_some hbu
      simpa using hfs
    subst hok
    refine ⟨fun un b => ?_, fun un b => ?_, fun un => ?_⟩
    · rw [hasSearchEdge_foldl_register, hasSearchEdge_foldl_search, hb]
    · rw [hasRegisterEdge_foldl_register, hasRegisterEdge_foldl_search,
        user_exists_foldl_search, hb]
    · rw [user_exists_foldl_register, user_exists_foldl_search]

/-- Counterexample to C5 as stated: a permissions spec whose base URI is not
registered raises `ValidationError`, so the listed, existing username gains
no edge. -/
theorem update_permissions_unregistered_base_cex :
    user_exists "alice" ⟨[⟨"alice", false, [], []⟩], [], []⟩ = true ∧
    update_permissions ⟨"s3://x", ["alice"], []⟩ ⟨[⟨"alice", false, [], []⟩], [], []⟩ =
      .error (.validationError "Base URI s3://x not registered") :=
  ⟨rfl, rfl⟩

/-- C5 (amended with a registered base URI): `update_permissions` is additive
only.  With the base URI registered the call always succeeds — whatever
usernames the two lists hold, missing ones are skipped without error — old
search and register edges survive, every listed existing username gains the
corresponding edge, the search and register edges afterwards are exactly the
union of the old edges with the granted ones, and a second overlapping call
again succeeds and yields the union of both calls' grants, for both edge
kinds. -/
theorem update_permissions_additive (perm : PermSpec) (s : SqlState)
    (hbase : base_uri_exists perm.base_uri s = true) :
    ∃ s2, update_permissions perm s = .ok s2 ∧
      (∀ un b, hasSearchEdge un b s = true → hasSearchEdge un b s2 = true) ∧
      (∀ un b, hasRegisterEdge un b s = true → hasRegisterEdge un b s2 = true) ∧
      (∀ un, un ∈ perm.users_with_search_permissions → user_exists un s = true →
        hasSearchEdge un perm.base_uri s2 = true) ∧
      (∀ un, un ∈ perm.users_with_register_permissions → user_exists un s = true →
        hasRegisterEdge un perm.base_uri s2 = true) ∧
      (∀ un, user_exists un s2 = user_exists un s) ∧
      (∀ un b, hasSearchEdge un b s2 =
        (hasSearchEdge un b s ||
          (perm.users_with_search_permissions.any (fun x => x == un) &&
            user_exists un s && (perm.base_uri == b)))) ∧
      (∀ un b, hasRegisterEdge un b s2 =
        (hasRegisterEdge un b s ||
          (perm.users_with_register_permissions.any (fun x => x == un) &&
            user_exists un s && (perm.base_uri == b)))) ∧
      (∀ perm2 : PermSpec, base_uri_exists perm2.base_uri s2 = true →
        ∃ s3, update_permissions perm2 s2 = .ok s3 ∧
          (∀ un b, hasSearchEdge un b s3 =
            (hasSearchEdge un b s ||
              (perm.users_with_search_permissions.any (fun x => x == un) &&
                user_exists un s && (perm.base_uri == b)) ||
              (perm2.users_with_search_permissions.any (fun x => x == un) &&
                user_exists un s && (perm2.base_uri == b)))) ∧
          (∀ un b, hasRegisterEdge un b s3 =
            (hasRegisterEdge un b s ||
              (perm.users_with_register_permissions.any (fun x => x == un) &&
                user_exists un s && (perm.base_uri == b)) ||
              (perm2.users_with_register_permissions.any (fun x => x == un) &&
                user_exists un s && (perm2.base_uri == b))))) := by
  obtain ⟨bu, hbu⟩ := _get_base_uri_obj_of_exists hbase
  obtain ⟨s2, hok⟩ : ∃ s2, update_permissions perm s = .ok s2 := by
    unfold update_permissions get_base_uri_obj
    rw [hbu]
    exact ⟨_, rfl⟩
  obtain ⟨hS, hR, hU⟩ := update_permissions_char perm s s2 hok
  refine ⟨s2, hok, fun un b h => ?_, fun un b h => ?_, fun un hm hex => ?_,
    fun un hm hex => ?_, hU, hS, hR, fun perm2 hbase2 => ?_⟩
  · rw [hS]; simp [h]
  · rw [hR]; simp [h]
  · have hany : perm.users_with_search_permissions.any (fun x => x == un) = true := by
      rw [List.any_eq_true]; exact ⟨un, hm, by simp⟩
    rw [hS]; simp [hany, hex]
  · have hany : perm.users_with_register_permissions.any (fun x => x == un) = true := by
      rw [List.any_eq_true]; exact ⟨un, hm, by simp⟩
    rw [hR]; simp [hany, hex]
  · obtain ⟨bu2, hbu2⟩ := _get_base_uri_obj_of_exists hbase2
    obtain ⟨s3, hok2⟩ : ∃ s3, update_permissions perm2 s2 = .ok s3 := by
      unfold update_permissions get_base_uri_obj
      rw [hbu2]
      exact ⟨_, rfl⟩
    obtain ⟨hS2, hR2, _⟩ := update_permissions_char perm2 s2 s3 hok2
    exact ⟨s3, hok2,
      fun un b => by rw [hS2 un b, hS un b, hU un],
      fun un b => by rw [hR2 un b, hR un b, hU un]⟩

theorem update_permissions_additive_witness :
    hasSearchEdge "alice" "s3://bucket"
      ⟨[⟨"alice", false, [⟨1, "s3://bucket"⟩], [⟨1, "s3://bucket"⟩]⟩],
       [⟨1, "s3://bucket"⟩], []⟩ = true ∧
    hasRegisterEdge "alice" "s3://bucket"
      ⟨[⟨"alice", false, [⟨1, "s3://bucket"⟩], [⟨1, "s3://bucket"⟩]⟩],
       [⟨1, "s3://bucket"⟩], []⟩ = true := by
  obtain ⟨s2, hok, hpreS, hpreR, hgainS, hgainR, hue, hcharS, hcharR, htwo⟩ :=
    update_permissions_additive ⟨"s3://bucket", ["alice", "ghost"], ["alice"]⟩
      ⟨[⟨"alice", false, [], []⟩], [⟨1, "s3://bucket"⟩], []⟩ (by rfl)
  have hs2 : s2 =
      ⟨[⟨"alice", false, [⟨1, "s3://bucket"⟩], [⟨1, "s3://bucket"⟩]⟩],
       [⟨1, "s3://bucket"⟩], []⟩ := by
    have h0 : update_permissions ⟨"s3://bucket", ["alice", "ghost"], ["alice"]⟩
        ⟨[⟨"alice", false, [], []⟩], [⟨1, "s3://bucket"⟩], []⟩ =
        .ok ⟨[⟨"alice", false, [⟨1, "s3://bucket"⟩], [⟨1, "s3://bucket"⟩]⟩],
             [⟨1, "s3://bucket"⟩], []⟩ := rfl
    exact Except.ok.inj (hok.symm.trans h0)
  subst hs2
  exact ⟨hgainS "alice" (by simp) (by rfl), hgainR "alice" (by simp) (by rfl)⟩

/-- The search loop only acts on listed usernames that exist: the missing
ones can be filtered away without changing the outcome. -/
theorem foldl_grantSearch_filter (bu : BaseURI) (L : List String) (st : SqlState) :
    L.foldl (grantSearchOne bu) st =
      (L.filter (fun un => user_exists un st)).foldl (grantSearchOne bu) st := by
  induction L generalizing st with
  | nil => rfl
  | cons un' L ih =>
    rw [List.foldl_cons, List.filter_cons]
    by_cases hex : user_exists un' st = true
    · rw [if_pos (by simp [hex]), List.foldl_cons, ih (grantSearchOne bu st un')]
      congr 1
      apply List.filter_congr
      intro x _
      rw [user_exists_grantSearchOne]
    · have hst : grantSearchOne bu st un' = st := by
        unfold grantSearchOne
        rw [if_neg hex]
      rw [if_neg (by simp [Bool.not_eq_true] at hex; simp [hex]), hst]
      exact ih st

/-- The register loop only acts on listed usernames that exist. -/
theorem foldl_grantRegister_filter (bu : BaseURI) (L : List String) (st : SqlState) :
    L.foldl (grantRegisterOne bu) st =
      (L.filter (fun un => user_exists un st)).foldl (grantRegisterOne bu) st := by
  induction L generalizing st with
  | nil => rfl
  | cons un' L ih =>
    rw [List.foldl_cons, List.filter_cons]
    by_cases hex : user_exists un' st = true
    · rw [if_pos (by simp [hex]), List.foldl_cons, ih (grantRegisterOne bu st un')]
      congr 1
      apply List.filter_congr
      intro x _
      rw [user_exists_grantRegisterOne]
    · have hst : grantRegisterOne bu st un' = st := by
        unfold grantRegisterOne
        rw [if_neg hex]
      rw [if_neg (by simp [Bool.not_eq_true] at hex; simp [hex]), hst]
      exact ih st

/-- Counterexample to C8 as stated: granting against a missing base URI (and
a missing user) is not a silent no-op — `update_permissions` raises
`ValidationError`. -/
theorem grant_missing_base_uri_errors_cex :
    base_uri_exists "s3://x" (⟨[], [], []⟩ : SqlState) = false ∧
    user_exists "bob" (⟨[], [], []⟩ : SqlState) = false ∧
    update_permissions ⟨"s3://x", ["bob"], []⟩ ⟨[], [], []⟩ =
      .error (.validationError "Base URI s3://x not registered") :=
  ⟨rfl, rfl, rfl⟩

/-- C8 (amended): usernames that do not exist are silently skipped — the call
behaves as if they were filtered out, and with no existing listed user it is
a no-op — but a missing base URI raises `ValidationError` instead of being
skipped. -/
theorem update_permissions_tolerant_amended (perm : PermSpec) (s : SqlState) :
    (base_uri_exists perm.base_uri s = false →
      update_permissions perm s =
        .error (.validationError ("Base URI " ++ perm.base_uri ++ " not registered"))) ∧
    (base_uri_exists perm.base_uri s = true →
      update_permissions perm s =
        update_permissions
          ⟨perm.base_uri,
           perm.users_with_search_permissions.filter (fun un => user_exists un s),
           perm.users_with_register_permissions.filter (fun un => user_exists un s)⟩ s) ∧
    (base_uri_exists perm.base_uri s = true →
      (∀ un ∈ perm.users_with_search_permissions, user_exists un s = false) →
      (∀ un ∈ perm.users_with_register_permissions, user_exists un s = false) →
      update_permissions perm s = .ok s) := by
  refine ⟨fun hmiss => ?_, fun hex => ?_, fun hex h1 h2 => ?_⟩
  · have hnone : _get_base_uri_obj perm.base_uri s = none := by
      unfold base_uri_exists at hmiss
      cases hc : _get_base_uri_obj perm.base_uri s with
      | none => rfl
      | some x => rw [hc] at hmiss; simp at hmiss
    unfold update_permissions get_base_uri_obj
    rw [hnone]
  · obtain ⟨bu, hbu⟩ := _get_base_uri_obj_of_exists hex
    unfold update_permissions get_base_uri_obj
    rw [hbu]
    simp only [Except.ok.injEq]
    rw [foldl_grantSearch_filter bu perm.users_with_search_permissions s]
    rw [foldl_grantRegister_filter bu perm.users_with_register_permissions
      ((perm.users_with_search_permissions.filter
        (fun un => user_exists un s)).foldl (grantSearchOne bu) s)]
    congr 1
    apply List.filter_congr
    intro x _
    rw [user_exists_foldl_search]
  · obtain ⟨bu, hbu⟩ := _get_base_uri_obj_of_exists hex
    have hL1 : perm.users_with_search_permissions.foldl (grantSearchOne bu) s = s := by
      rw [foldl_grantSearch_filter bu perm.users_with_search_permissions s]
      rw [List.filter_eq_nil_iff.mpr (fun a ha => by simp [h1 a ha])]
      rfl
    have hL2 : perm.users_with_register_permissions.foldl (grantRegisterOne bu) s = s := by
      rw [foldl_grantRegister_filter bu perm.users_with_register_permissions s]
      rw [List.filter_eq_nil_iff.mpr (fun a ha => by simp [h2 a ha])]
      rfl
    unfold update_permissions get_base_uri_obj
    rw [hbu]
    simp [hL1, hL2]

theorem update_permissions_tolerant_amended_witness :
    update_permissions ⟨"s3://nope", ["bob"], []⟩
      ⟨[⟨"bob", false, [], []⟩], [⟨1, "s3://bucket"⟩], []⟩ =
      .error (.validationError "Base URI s3://nope not registered") :=
  (update_permissions_tolerant_amended ⟨"s3://nope", ["bob"], []⟩
    ⟨[⟨"bob", false, [], []⟩], [⟨1, "s3://bucket"⟩], []⟩).1 (by rfl)
